import Mathlib

/-
Verification of the request-time decision core of the llmops-rag-pipeline
repository against its natural-language specification.

The Lean definitions below are shallow embeddings of the Python sources:
  * src/api/monitoring/drift_detector.py   (DriftDetector)
  * src/api/services/routing_service.py    (RoutingService)
  * src/api/services/cache_service.py      (CacheService)
  * src/api/services/vector_store.py       (VectorStore.hybrid_search)

Conventions used throughout:
  * Python floats are modelled as exact rationals (ℚ).  The float value NaN
    (which arises in the code from an unguarded 0/0 division) is modelled by
    an explicit definedness flag; every float comparison involving NaN is
    false, which the Boolean comparison functions below reproduce.
  * Timestamps are rationals measured in days, so `timedelta(days=k)` is the
    rational `k`.
  * Stateful Python methods become pure functions from the relevant state
    (plus an explicit `now`) to the new state / result.
  * External collaborators that live outside src/ (NLTK tokenizers, the
    BM25Okapi scorer of rank_bm25, scipy.stats.ks_2samp, the Redis client,
    the Chroma vector index) are modelled as explicit inputs: their outputs
    are parameters of the embedded functions, exactly at the points where the
    Python code consumes their results.
-/

namespace RagPipeline

/-! ## DriftDetector (src/api/monitoring/drift_detector.py)

The per-domain state `self.query_data[domain]` is a list of
`(timestamp, word_count)` pairs.  `record_query` and `detect_drift` only ever
touch the single domain they are given, so the embedding works on one
domain's window directly. -/

/-- A `(timestamp, word_count)` sample, as stored in `self.query_data[domain]`.
Timestamps are rationals in day units. -/
abbrev QuerySample := ℚ × ℕ

/-- Number of words of a Python string as computed by `len(query.split())`:
`str.split()` with no argument splits on runs of whitespace and drops empty
fields, so the result counts maximal runs of non-whitespace characters. -/
def countWordsAux : List Char → Bool → ℕ
  | [], _ => 0
  | c :: cs, inWord =>
    if c.isWhitespace then countWordsAux cs false
    else (if inWord then 0 else 1) + countWordsAux cs true

/-- Python `len(query.split())`. -/
def pySplitLen (query : String) : ℕ :=
  countWordsAux query.toList false

/-- DriftDetector.record_query: the guard `if not query: return` fires only on
the empty string (Python truthiness of `str`); otherwise the sample
`(now, len(query.split()))` is appended and everything not strictly newer
than `now - 30` days is pruned.  The two `datetime.now()` calls of the
Python body (timestamp and prune cutoff) are modelled as the same instant
`now`. -/
def record_query (now : ℚ) (query : String) (window : List QuerySample) :
    List QuerySample :=
  if query = "" then window
  else
    let length := pySplitLen query
    let appended := window ++ [(now, length)]
    appended.filter (fun d => decide (now - 30 < d.1))

/-- Mean of a list of naturals, as `np.mean` (exact rational value). -/
def meanLen (l : List ℕ) : ℚ :=
  (l.map (fun n => (n : ℚ))).sum / l.length

/-- The dictionary returned by `DriftDetector.detect_drift`, with the keys
that are absent on the insufficient-data branch modelled as `none`. -/
structure DriftReport where
  drift_detected : Bool
  reason : Option String
  p_value : Option ℚ
  statistic : Option ℚ
  current_mean_length : Option ℚ
  previous_mean_length : Option ℚ
  current_samples : ℕ
  previous_samples : ℕ
deriving DecidableEq, Repr

/-- Word counts of the current window `[now - window_days, ∞)` (the code only
bounds it below: `ts >= current_start`). -/
def currentWindowLengths (windowDays now : ℚ) (data : List QuerySample) :
    List ℕ :=
  (data.filter (fun d => decide (now - windowDays ≤ d.1))).map (·.2)

/-- Word counts of the previous window `[now - 2·window_days, now - window_days)`. -/
def previousWindowLengths (windowDays now : ℚ) (data : List QuerySample) :
    List ℕ :=
  (data.filter (fun d =>
    decide (now - windowDays - windowDays ≤ d.1 ∧ d.1 < now - windowDays))).map (·.2)

/-- DriftDetector.detect_drift.  `ks` is the external
`scipy.stats.ks_2samp`, returning `(statistic, p_value)`; it is consumed
exactly where the Python code calls it, i.e. only after both windows hold at
least 30 samples. -/
def detect_drift (ks : List ℕ → List ℕ → ℚ × ℚ) (windowDays now : ℚ)
    (data : List QuerySample) : DriftReport :=
  let current := currentWindowLengths windowDays now data
  let previous := previousWindowLengths windowDays now data
  if current.length < 30 ∨ previous.length < 30 then
    ⟨false, some "Insufficient data", none, none, none, none,
      current.length, previous.length⟩
  else
    let sp := ks current previous
    ⟨decide (sp.2 < 1/20), none, some sp.2, some sp.1,
      some (meanLen current), some (meanLen previous),
      current.length, previous.length⟩

/-! ## RoutingService (src/api/services/routing_service.py)

`analyze_complexity` computes `word_count` and `sentence_count` with the
external NLTK tokenizers `word_tokenize` / `sent_tokenize`; those two counts
are therefore explicit inputs of the embedding.  The remaining features
(`has_technical_terms`, `has_multiple_questions`, `has_conditional`) are pure
string computations and are embedded from the source. -/

/-- Model tier: the `Literal['lite', 'pro']` of the source. -/
inductive Tier where
  | lite
  | pro
deriving DecidableEq, Repr

/-- One entry of `self.domain_routing`.  The Python dicts carry a
`'simple_threshold'` key only for `legal` and a `'complex_threshold'` key
only for the other configured domains; absent keys are `none`. -/
structure DomainConfig where
  dflt : Tier
  simple_threshold : Option ℕ
  complex_threshold : Option ℕ
deriving DecidableEq, Repr

/-- The `self.domain_routing` dictionary. -/
def domain_routing (domain : String) : Option DomainConfig :=
  if domain = "legal" then some ⟨Tier.pro, some 20, none⟩
  else if domain = "hr" then some ⟨Tier.lite, none, some 100⟩
  else if domain = "engineering" then some ⟨Tier.lite, none, some 75⟩
  else if domain = "history" then some ⟨Tier.lite, none, some 50⟩
  else if domain = "general" then some ⟨Tier.lite, none, some 50⟩
  else none

/-- Python `s.lower()` (per-character lowering; the queries of interest are
ASCII, where `str.lower` is exactly character-wise). -/
def pyLower (s : String) : List Char :=
  s.toList.map Char.toLower

/-- Word characters of the regex class `\w` (ASCII): letters, digits, `_`. -/
def isWordChar (c : Char) : Bool :=
  c.isAlpha || c.isDigit || c = '_'

/-- Maximal runs of word characters of a character list.  A regex
`\b kw \b` matches somewhere in `s` exactly when `kw` is one of these runs. -/
def wordRuns : List Char → List (List Char)
  | [] => []
  | c :: cs =>
    if isWordChar c then
      match wordRuns cs with
      | [] => [[c]]
      | r :: rs =>
        match cs with
        | [] => [[c]]
        | c2 :: _ => if isWordChar c2 then (c :: r) :: rs else [c] :: r :: rs
    else wordRuns cs

/-- `re.search(r'\b(if|when|unless|provided|assuming)\b', query.lower())`
as a whole-word membership test over the lowered query. -/
def hasConditionalLanguage (query : String) : Bool :=
  let runs := wordRuns (pyLower query)
  ["if", "when", "unless", "provided", "assuming"].any
    (fun kw => runs.contains kw.toList)

/-- Substring occurrence, Python `needle in haystack`. -/
def containsSub (haystack needle : List Char) : Bool :=
  (List.range (haystack.length + 1)).any
    (fun i => (haystack.drop i).take needle.length = needle)

/-- RoutingService._has_technical_terms: substring membership of a fixed
keyword list in the lowered query. -/
def hasTechnicalTerms (query : String) : Bool :=
  let ql := pyLower query
  ["algorithm", "implementation", "architecture", "deployment",
   "configuration", "infrastructure", "optimization", "integration",
   "compliance", "regulation", "statute", "provision"].any
    (fun term => containsSub ql term.toList)

/-- Python `query.count c`. -/
def countChar (query : String) (c : Char) : ℕ :=
  (query.toList.filter (fun x => x = c)).length

/-- The dictionary returned by `analyze_complexity`. -/
structure RoutingDecision where
  model_tier : Tier
  model_id : String
  reason : String
deriving DecidableEq, Repr

/-- RoutingService.analyze_complexity.  `word_count` and `sentence_count`
are the results of the external NLTK calls `len(word_tokenize(query.lower()))`
and `len(sent_tokenize(query))`; everything else follows the source.  The
dictionary accesses `config['simple_threshold']` / `config['complex_threshold']`
occur only in branches where the source's registry holds the key, so the
`Option.getD 0` defaults are never exercised. -/
def analyze_complexity (word_count sentence_count : ℕ) (query : String)
    (domain : String) : RoutingDecision :=
  let config := (domain_routing domain).getD ⟨Tier.lite, none, some 50⟩
  let has_technical_terms := hasTechnicalTerms query
  let has_multiple_questions := decide (countChar query '?' > 1)
  let has_conditional := hasConditionalLanguage query
  let td :=
    if domain = "legal" then
      if word_count < config.simple_threshold.getD 0 ∧ has_conditional = false then
        (Tier.lite, "Simple legal query")
      else
        (Tier.pro, "Complex legal query")
    else if domain = "hr" then
      if word_count > config.complex_threshold.getD 0 ∨ has_multiple_questions = true then
        (Tier.pro, "Complex HR query")
      else
        (Tier.lite, "Simple HR query")
    else
      let complexity_score : ℕ :=
        (if word_count > config.complex_threshold.getD 0 then 1 else 0) * 2 +
        (if sentence_count > 3 then 1 else 0) * 1 +
        (if has_technical_terms then 1 else 0) * 1 +
        (if has_multiple_questions then 1 else 0) * 1 +
        (if has_conditional then 1 else 0) * 1
      if complexity_score ≥ 3 then
        (Tier.pro, "High complexity score: " ++ toString complexity_score)
      else
        (Tier.lite, "Low complexity score: " ++ toString complexity_score)
  let model_id :=
    if td.1 = Tier.pro then "anthropic.claude-3-sonnet-20240229-v1:0"
    else "global.amazon.nova-2-lite-v1:0"
  ⟨td.1, model_id, td.2⟩

/-- The decision table exactly as the specification states it, as a function
of the five features; written from the spec's words to be compared with
`analyze_complexity` (refinement statement of claim C6). -/
def specDecisionTable (word_count sentence_count : ℕ)
    (has_technical_terms has_multiple_questions has_conditional : Bool)
    (domain : String) : Tier :=
  if domain = "legal" then
    if word_count < 20 ∧ has_conditional = false then Tier.lite else Tier.pro
  else if domain = "hr" then
    if word_count > 100 ∨ has_multiple_questions = true then Tier.pro else Tier.lite
  else
    let threshold : ℕ := if domain = "engineering" then 75 else 50
    let score : ℕ :=
      2 * (if word_count > threshold then 1 else 0) +
      (if sentence_count > 3 then 1 else 0) +
      (if has_technical_terms then 1 else 0) +
      (if has_multiple_questions then 1 else 0) +
      (if has_conditional then 1 else 0)
    if score ≥ 3 then Tier.pro else Tier.lite

/-! ## CacheService (src/api/services/cache_service.py)

`_cosine_similarity` returns the float `np.dot(v1, v2) / (norm(v1) * norm(v2))`
with no guard on the denominator; a zero-norm operand yields the float NaN
(0/0), never an exception.  The similarity value `dot / √(|v1|²·|v2|²)` is
represented exactly by the pair `(dot, prodSq)` with `prodSq = |v1|²·|v2|²`,
together with the definedness condition `prodSq ≠ 0`.  Comparisons of such
values are decided through the signed square `Sim.key = sign(dot)·dot²/prodSq`,
which is a strictly monotone image of the real value (proved below in
`simKey_cast`, `simGtB_iff_val`, `simGeThreshold_iff_val`), and every
comparison involving an undefined value (NaN) is false, as in IEEE floats. -/

/-- Python list dot product `np.dot` (the stored embeddings all share the
system's fixed dimension, where `np.dot` is the coordinate-wise product sum). -/
def dotList (v w : List ℚ) : ℚ :=
  (List.zipWith (fun a b => a * b) v w).sum

/-- Squared Euclidean norm, `np.linalg.norm(v) ** 2`. -/
def sumSq (v : List ℚ) : ℚ :=
  dotList v v

/-- Exact representation of the float `dot / (norm1 * norm2)`:
the value is `dot / √prodSq`, undefined (NaN) when `prodSq = 0`. -/
structure Sim where
  dot : ℚ
  prodSq : ℚ
deriving DecidableEq, Repr

/-- The float is NaN exactly when the unguarded denominator is zero. -/
def Sim.isNaN (s : Sim) : Bool :=
  decide (s.prodSq = 0)

/-- Signed-square key of the value `dot / √prodSq`: monotone image
`val * |val| = dot * |dot| / prodSq` used to decide float comparisons
exactly (see `simKey_cast`). -/
def Sim.key (s : Sim) : ℚ :=
  if 0 ≤ s.dot then s.dot ^ 2 / s.prodSq else -(s.dot ^ 2 / s.prodSq)

/-- CacheService._cosine_similarity: `np.dot(v1, v2) / (norm(v1) * norm(v2))`
with no zero-norm guard. -/
def cosine_similarity (v w : List ℚ) : Sim :=
  ⟨dotList v w, sumSq v * sumSq w⟩

/-- The float literal `0.0` initialising `best_similarity`. -/
def simZero : Sim := ⟨0, 1⟩

/-- Float `a > b`: false whenever either side is NaN. -/
def simGtB (a b : Sim) : Bool :=
  !a.isNaN && !b.isNaN && decide (b.key < a.key)

/-- Float `s >= 0.95` (`self.similarity_threshold`): false when `s` is NaN;
otherwise `val ≥ 0.95` ⟺ `key ≥ 0.95²  = 361/400` by monotonicity of the key. -/
def simGeThreshold (s : Sim) : Bool :=
  !s.isNaN && decide ((361 / 400 : ℚ) ≤ s.key)

/-- A cached response entry under the queried domain's namespace, as written
by `set_response`: the stored `query_embedding` and `response` fields of the
JSON payload. -/
structure CacheEntry where
  query_embedding : List ℚ
  response : String
deriving DecidableEq, Repr

/-- State of the scan loop in `find_similar_response`: `best_match` (Python
`None` or the stored response string) and `best_similarity`. -/
structure ScanState where
  best_match : Option String
  best_similarity : Sim
deriving DecidableEq, Repr

/-- One iteration of the `for key in keys[:100]` loop of
`find_similar_response`: entries whose stored embedding is falsy (`None`/empty)
are skipped; otherwise `best_match`/`best_similarity` are updated when
`similarity > best_similarity and similarity >= self.similarity_threshold`. -/
def scanStep (query_embedding : List ℚ) (st : ScanState) (e : CacheEntry) :
    ScanState :=
  if e.query_embedding = [] then st
  else
    let similarity := cosine_similarity query_embedding e.query_embedding
    if simGtB similarity st.best_similarity && simGeThreshold similarity then
      ⟨some e.response, similarity⟩
    else st

/-- CacheService.find_similar_response over the entries stored under the
domain's namespace (in the backend's key order).  `if not keys: return None`;
then the bounded scan over `keys[:100]`; finally `if best_match:` — Python
truthiness, so a `None` **or empty-string** best match yields a miss. -/
def find_similar_response (query_embedding : List ℚ)
    (entries : List CacheEntry) : Option (String × Sim) :=
  if entries = [] then none
  else
    let final := (entries.take 100).foldl (scanStep query_embedding)
      ⟨none, simZero⟩
    match final.best_match with
    | none => none
    | some r => if r = "" then none else some (r, final.best_similarity)

/-- Entries of the scan that pass the similarity threshold (entries with a
falsy embedding never pass: their `prodSq` is `0`). -/
def passingCandidates (query_embedding : List ℚ) (entries : List CacheEntry) :
    List CacheEntry :=
  entries.filter
    (fun e => simGeThreshold (cosine_similarity query_embedding e.query_embedding))

/-- Similarity key of an entry against the query embedding. -/
def entryKey (query_embedding : List ℚ) (e : CacheEntry) : ℚ :=
  (cosine_similarity query_embedding e.query_embedding).key

/-- First entry attaining the maximal similarity key of the list (ties go to
the earlier entry). -/
def firstMax (query_embedding : List ℚ) : List CacheEntry → Option CacheEntry
  | [] => none
  | e :: es =>
    match firstMax query_embedding es with
    | none => some e
    | some e2 =>
      if entryKey query_embedding e < entryKey query_embedding e2 then some e2
      else some e

/-- Declarative description of the scan, following the spec's words amended
by the observed behaviour: among the first 100 entries, take those whose
cosine similarity clears the 0.95 threshold; the winner is the earliest entry
attaining the best such similarity; the lookup is a hit only when the
winner's stored response is non-empty. -/
def specLookup (query_embedding : List ℚ) (entries : List CacheEntry) :
    Option (String × Sim) :=
  match firstMax query_embedding
      (passingCandidates query_embedding (entries.take 100)) with
  | none => none
  | some e =>
    if e.response = "" then none
    else some (e.response, cosine_similarity query_embedding e.query_embedding)

/-- Errors raised by the Redis client when the backend is unreachable. -/
inductive BackendError where
  | connectivity
deriving DecidableEq, Repr

/-- `find_similar_response` including its backend interaction: the
`self.redis.keys(pattern)` call either returns the domain's entries or raises
a connectivity error.  The body of `find_similar_response` contains no
`try`/`except`, so a raised error propagates to the caller unchanged (and in
`RAGService.query` the call site at src/api/services/rag_service.py:48
is outside the `try` block that starts at line 140). -/
def find_similar_response_with_backend
    (backend : Except BackendError (List CacheEntry))
    (query_embedding : List ℚ) : Except BackendError (Option (String × Sim)) :=
  match backend with
  | Except.error e => Except.error e
  | Except.ok entries => Except.ok (find_similar_response query_embedding entries)

/-! ## VectorStore.hybrid_search (src/api/services/vector_store.py)

Inputs of the embedded ranking core, exactly the data the Python body
consumes after its external calls:
  * `ids`, `distances`: the parallel lists `vector_results['ids'][0]` and
    `vector_results['distances'][0]` returned by the Chroma query (the
    vector shortlist of size ≤ 2·top_k);
  * `bm25_scores`: the array `self.bm25.get_scores(tokenized_query)` of the
    external BM25Okapi scorer — one score per document of the corpus, in
    corpus (`documents_cache`) order.
The Python `combined_scores` dict is modelled as an association list in
insertion order, and `sorted(..., key=lambda x: x[1], reverse=True)` as a
stable descending insertion sort (Python's sort is stable, and `reverse=True`
does not reverse the order of ties). -/

/-- Python dict assignment `m[k] = v`: overwrite in place if the key exists
(keeping its original position, as Python dicts do), else append. -/
def dictInsert (m : List (String × ℚ)) (k : String) (v : ℚ) :
    List (String × ℚ) :=
  if m.any (fun p => p.1 = k) then
    m.map (fun p => if p.1 = k then (p.1, v) else p)
  else m ++ [(k, v)]

/-- The guarded accumulation `if doc_id in combined_scores:
combined_scores[doc_id] += v`. -/
def dictAddTo (m : List (String × ℚ)) (k : String) (v : ℚ) :
    List (String × ℚ) :=
  if m.any (fun p => p.1 = k) then
    m.map (fun p => if p.1 = k then (p.1, p.2 + v) else p)
  else m

/-- The `combined_scores` dict after both loops of `hybrid_search`:
first `combined_scores[doc_id] = alpha * (1 / (1 + distance))` over
`zip(ids, distances)`, then `combined_scores[doc_id] += (1 - alpha) * score`
over `zip(ids, bm25_scores)` — note the second zip pairs the shortlist id at
position `i` with the BM25 score of the **corpus document** at position `i`. -/
def combined_scores (alpha : ℚ) (ids : List String)
    (distances bm25_scores : List ℚ) : List (String × ℚ) :=
  let vecPart := (ids.zip distances).foldl
    (fun m p => dictInsert m p.1 (alpha * (1 / (1 + p.2)))) []
  (ids.zip bm25_scores).foldl
    (fun m p => dictAddTo m p.1 ((1 - alpha) * p.2)) vecPart

/-- Stable insertion of one scored id into a descending list: `x` goes in
front of the first strictly smaller score, hence after every earlier element
of equal score. -/
def insertDesc (x : String × ℚ) : List (String × ℚ) → List (String × ℚ)
  | [] => [x]
  | y :: ys => if y.2 < x.2 then x :: y :: ys else y :: insertDesc x ys

/-- Python `sorted(items, key=lambda x: x[1], reverse=True)`: stable
descending sort by score. -/
def sortDesc (l : List (String × ℚ)) : List (String × ℚ) :=
  l.foldl (fun acc x => insertDesc x acc) []

/-- The ranked `(doc_id, fused_score)` list computed by `hybrid_search`
before the final id projection and document fetch:
`sorted(combined_scores.items(), key=lambda x: x[1], reverse=True)[:top_k]`. -/
def hybrid_search_ranked (alpha : ℚ) (top_k : ℕ) (ids : List String)
    (distances bm25_scores : List ℚ) : List (String × ℚ) :=
  (sortDesc (combined_scores alpha ids distances bm25_scores)).take top_k

/-- The BM25 score belonging to a given chunk id: the entry of the
corpus-ordered score array at that chunk's corpus position. -/
def ownLexicalScore (corpus_ids : List String) (bm25_scores : List ℚ)
    (doc_id : String) : ℚ :=
  match (corpus_ids.zip bm25_scores).find? (fun p => p.1 = doc_id) with
  | some p => p.2
  | none => 0

/-- The fused score the specification prescribes for a shortlist candidate:
`α · 1/(1+d) + (1−α) · L` with `L` the candidate's **own** lexical score over
the corpus (written from the spec's words, for comparison with
`combined_scores`). -/
def specFusedScore (alpha : ℚ) (corpus_ids : List String)
    (bm25_scores : List ℚ) (distance : ℚ) (doc_id : String) : ℚ :=
  alpha * (1 / (1 + distance)) +
    (1 - alpha) * ownLexicalScore corpus_ids bm25_scores doc_id

/-! ## Soundness of the similarity encoding

The pair representation of float similarities is tied to its real value
`dot / √prodSq`: the computable comparisons on `Sim.key` coincide with the
real comparisons of the values. -/

/-- The real number a defined `Sim` stands for. -/
noncomputable def Sim.val (s : Sim) : ℝ :=
  (s.dot : ℝ) / Real.sqrt (s.prodSq : ℝ)

lemma mul_self_abs_strictMono : StrictMono (fun x : ℝ => x * |x|) := by
  intro a b h
  simp only
  rcases le_or_lt 0 a with ha | ha
  · rw [abs_of_nonneg ha, abs_of_pos (lt_of_le_of_lt ha h)]
    nlinarith
  · rcases le_or_lt 0 b with hb | hb
    · rw [abs_of_neg ha, abs_of_nonneg hb]
      nlinarith
    · rw [abs_of_neg ha, abs_of_neg hb]
      nlinarith

lemma simKey_cast (s : Sim) (h : 0 < s.prodSq) :
    (s.key : ℝ) = s.val * |s.val| := by
  have hp : (0 : ℝ) < (s.prodSq : ℝ) := by exact_mod_cast h
  have hsq : (0 : ℝ) < Real.sqrt (s.prodSq : ℝ) := Real.sqrt_pos.mpr hp
  have hss : Real.sqrt (s.prodSq : ℝ) * Real.sqrt (s.prodSq : ℝ) = (s.prodSq : ℝ) :=
    Real.mul_self_sqrt (le_of_lt hp)
  unfold Sim.val Sim.key
  rcases le_or_lt 0 s.dot with hd | hd
  · have hd' : (0 : ℝ) ≤ (s.dot : ℝ) := by exact_mod_cast hd
    rw [if_pos hd, abs_div, abs_of_nonneg hd', abs_of_pos hsq, div_mul_div_comm,
      hss]
    push_cast
    ring
  · have hd' : (s.dot : ℝ) < 0 := by exact_mod_cast hd
    rw [if_neg (not_le.mpr hd), abs_div, abs_of_neg hd', abs_of_pos hsq,
      div_mul_div_comm, hss]
    push_cast
    ring

lemma simGtB_iff_val (a b : Sim) (ha : 0 ≤ a.prodSq) (hb : 0 ≤ b.prodSq) :
    simGtB a b = true ↔ a.prodSq ≠ 0 ∧ b.prodSq ≠ 0 ∧ b.val < a.val := by
  unfold simGtB Sim.isNaN
  simp only [Bool.and_eq_true, Bool.not_eq_true', decide_eq_false_iff_not,
    decide_eq_true_eq]
  constructor
  · rintro ⟨⟨hna, hnb⟩, hk⟩
    refine ⟨hna, hnb, ?_⟩
    have hpa : 0 < a.prodSq := lt_of_le_of_ne ha (Ne.symm hna)
    have hpb : 0 < b.prodSq := lt_of_le_of_ne hb (Ne.symm hnb)
    have hcast : (b.key : ℝ) < (a.key : ℝ) := by exact_mod_cast hk
    rw [simKey_cast a hpa, simKey_cast b hpb] at hcast
    exact mul_self_abs_strictMono.lt_iff_lt.mp hcast
  · rintro ⟨hna, hnb, hv⟩
    have hpa : 0 < a.prodSq := lt_of_le_of_ne ha (Ne.symm hna)
    have hpb : 0 < b.prodSq := lt_of_le_of_ne hb (Ne.symm hnb)
    refine ⟨⟨hna, hnb⟩, ?_⟩
    have hcast : (b.key : ℝ) < (a.key : ℝ) := by
      rw [simKey_cast a hpa, simKey_cast b hpb]
      exact mul_self_abs_strictMono hv
    exact_mod_cast hcast

lemma simGeThreshold_iff_val (s : Sim) (h : 0 ≤ s.prodSq) :
    simGeThreshold s = true ↔ s.prodSq ≠ 0 ∧ (19 / 20 : ℝ) ≤ s.val := by
  unfold simGeThreshold Sim.isNaN
  simp only [Bool.and_eq_true, Bool.not_eq_true', decide_eq_false_iff_not,
    decide_eq_true_eq]
  constructor
  · rintro ⟨hn, hk⟩
    refine ⟨hn, ?_⟩
    have hp : 0 < s.prodSq := lt_of_le_of_ne h (Ne.symm hn)
    have hcast : ((361 / 400 : ℚ) : ℝ) ≤ (s.key : ℝ) := by exact_mod_cast hk
    rw [simKey_cast s hp] at hcast
    have h361 : ((361 / 400 : ℚ) : ℝ) = (19 / 20 : ℝ) * |(19 / 20 : ℝ)| := by
      rw [abs_of_nonneg]
      · norm_num
      · norm_num
    rw [h361] at hcast
    exact mul_self_abs_strictMono.le_iff_le.mp hcast
  · rintro ⟨hn, hv⟩
    have hp : 0 < s.prodSq := lt_of_le_of_ne h (Ne.symm hn)
    refine ⟨hn, ?_⟩
    have hcast : ((361 / 400 : ℚ) : ℝ) ≤ (s.key : ℝ) := by
      rw [simKey_cast s hp]
      have h361 : ((361 / 400 : ℚ) : ℝ) = (19 / 20 : ℝ) * |(19 / 20 : ℝ)| := by
        rw [abs_of_nonneg]
        · norm_num
        · norm_num
      rw [h361]
      exact mul_self_abs_strictMono.le_iff_le.mpr hv
    exact_mod_cast hcast

lemma sumSq_nonneg (v : List ℚ) : 0 ≤ sumSq v := by
  unfold sumSq dotList
  rw [List.zipWith_same]
  apply List.sum_nonneg
  intro x hx
  rcases List.mem_map.mp hx with ⟨a, _, rfl⟩
  exact mul_self_nonneg a

lemma cosine_prodSq_nonneg (v w : List ℚ) :
    0 ≤ (cosine_similarity v w).prodSq :=
  mul_nonneg (sumSq_nonneg v) (sumSq_nonneg w)

/-! ## Helper lemmas about the cache scan -/

lemma scanStep_zero_query (qe : List ℚ) (hq : sumSq qe = 0) (st : ScanState)
    (e : CacheEntry) : scanStep qe st e = st := by
  unfold scanStep
  split
  · rfl
  · have hnan : (cosine_similarity qe e.query_embedding).isNaN = true := by
      unfold Sim.isNaN cosine_similarity
      simp [hq]
    simp [simGtB, hnan]

lemma foldl_scan_zero_query (qe : List ℚ) (hq : sumSq qe = 0) :
    ∀ (l : List CacheEntry) (st : ScanState), l.foldl (scanStep qe) st = st := by
  intro l
  induction l with
  | nil => intro st; rfl
  | cons e t ih =>
    intro st
    rw [List.foldl_cons, scanStep_zero_query qe hq st e]
    exact ih st

lemma find_zero_query (qe : List ℚ) (hq : sumSq qe = 0)
    (entries : List CacheEntry) : find_similar_response qe entries = none := by
  by_cases h : entries = []
  · simp [find_similar_response, h]
  · simp [find_similar_response, h, foldl_scan_zero_query qe hq]

/-! ## Claim C5 — record_query on empty/blank queries -/

/-- C5, counterexample: a whitespace-only (blank but non-empty) query is NOT
a no-op for `record_query`: `if not query` only catches the empty string, so
`" "` falls through, `len(" ".split()) = 0` and the sample `(now, 0)` is
appended — the window of one sample grows to two, so its size (and mean)
change, contradicting the claim that blank queries leave size and mean
unchanged. -/
theorem record_query_blank_counterexample :
    (record_query 1 " " [((0 : ℚ), 2)]).length ≠
      ([((0 : ℚ), 2)] : List QuerySample).length ∧
    record_query 1 " " [((0 : ℚ), 2)] = [((0 : ℚ), 2), (1, 0)] := by
  have hp : pySplitLen " " = 0 := rfl
  have h : record_query 1 " " [((0 : ℚ), 2)] = [((0 : ℚ), 2), (1, 0)] := by
    unfold record_query
    rw [if_neg (by decide : ¬(" " = "")), hp]
    norm_num [List.filter]
  exact ⟨by rw [h]; decide, h⟩

/-- C5, amended: `record_query` is a no-op for the **empty** query only (the
Python truthiness guard `if not query: return`); a whitespace-only query is
recorded as a zero-word-count sample. -/
theorem record_query_empty_noop (now : ℚ) (window : List QuerySample) :
    record_query now "" window = window := by
  simp [record_query]

/-! ## Claim C8 — 30-day retention after every append -/

/-- C8: after every `record_query` call that appends a sample (non-empty
query), the retained window holds no sample older than 30 days before the
append time: the prune keeps exactly the samples with `timestamp > now - 30`. -/
theorem record_query_retention (now : ℚ) (query : String)
    (window : List QuerySample) (h : query ≠ "") :
    ∀ s ∈ record_query now query window, ¬(s.1 < now - 30) := by
  intro s hs
  unfold record_query at hs
  rw [if_neg h] at hs
  have h2 := (List.mem_filter.mp hs).2
  have h3 : now - 30 < s.1 := of_decide_eq_true h2
  linarith

/-- Witness for C8 at a concrete input: a 40-day-old sample is pruned and the
claim's bound holds for everything retained. -/
theorem record_query_retention_witness :
    ("hi" : String) ≠ "" ∧
    ∀ s ∈ record_query 0 "hi" [((-40 : ℚ), 5)], ¬(s.1 < 0 - 30) :=
  ⟨by decide, record_query_retention 0 "hi" [((-40 : ℚ), 5)] (by decide)⟩

/-! ## Claim C9 — detect_drift with insufficient data -/

/-- C9: whenever either 7-day window holds fewer than 30 samples,
`detect_drift` returns the structured insufficient-data report — drift flag
false, reason string, the two sample counts, and no statistical fields — and
in particular never consults the KS test (the result is the same for every
`ks`) and never raises (the embedding is a total function). -/
theorem detect_drift_insufficient (ks : List ℕ → List ℕ → ℚ × ℚ) (now : ℚ)
    (data : List QuerySample)
    (h : (currentWindowLengths 7 now data).length < 30 ∨
      (previousWindowLengths 7 now data).length < 30) :
    detect_drift ks 7 now data =
      ⟨false, some "Insufficient data", none, none, none, none,
        (currentWindowLengths 7 now data).length,
        (previousWindowLengths 7 now data).length⟩ := by
  unfold detect_drift
  rw [if_pos h]

/-- Witness for C9 at a concrete input: the empty window. -/
theorem detect_drift_insufficient_witness :
    ((currentWindowLengths 7 0 ([] : List QuerySample)).length < 30 ∨
      (previousWindowLengths 7 0 ([] : List QuerySample)).length < 30) ∧
    detect_drift (fun _ _ => (0, 0)) 7 0 [] =
      ⟨false, some "Insufficient data", none, none, none, none, 0, 0⟩ :=
  ⟨Or.inl (by decide),
    by simpa using
      detect_drift_insufficient (fun _ _ => (0, 0)) 0 [] (Or.inl (by decide))⟩

/-! ## Claim C3 — zero-norm cosine similarity -/

/-- C3, counterexample: `_cosine_similarity` has no zero-norm guard; on a
zero vector the denominator `norm(v1) * norm(v2)` is `0`, so the float result
is NaN (`prodSq = 0`, `isNaN`), not the number 0 the claim promises. -/
theorem cosine_zero_norm_counterexample :
    (cosine_similarity [(0 : ℚ)] [1]).isNaN = true ∧
    (cosine_similarity [(0 : ℚ)] [1]).prodSq = 0 := by
  have h : (cosine_similarity [(0 : ℚ)] [1]).prodSq = 0 := by
    norm_num [cosine_similarity, sumSq, dotList]
  exact ⟨by simp [Sim.isNaN, h], h⟩

/-- C3, amended: the similarity is the unguarded normalized dot product
`dot / (‖v‖·‖w‖)`; when either vector has zero (squared) norm the result is
the undefined float NaN, **every** comparison on it is false — so it can
never clear the 0.95 threshold nor beat any running best — and a lookup with
a zero-norm query embedding always misses. -/
theorem cosine_zero_norm_behaviour (v w : List ℚ)
    (h : sumSq v = 0 ∨ sumSq w = 0) :
    (cosine_similarity v w).dot = dotList v w ∧
    (cosine_similarity v w).isNaN = true ∧
    simGeThreshold (cosine_similarity v w) = false ∧
    (∀ b, simGtB (cosine_similarity v w) b = false) ∧
    (sumSq v = 0 → ∀ entries, find_similar_response v entries = none) := by
  have hnan : (cosine_similarity v w).isNaN = true := by
    unfold Sim.isNaN cosine_similarity
    rcases h with h | h <;> simp [h]
  refine ⟨rfl, hnan, ?_, ?_, ?_⟩
  · simp [simGeThreshold, hnan]
  · intro b
    simp [simGtB, hnan]
  · intro hv entries
    exact find_zero_query v hv entries

/-- Witness for C3 (amended) at a concrete input: the zero vector against a
unit vector, and a lookup with the zero query embedding over a cached entry. -/
theorem cosine_zero_norm_behaviour_witness :
    (sumSq [(0 : ℚ), 0] = 0 ∨ sumSq [(1 : ℚ), 0] = 0) ∧
    (cosine_similarity [(0 : ℚ), 0] [1, 0]).isNaN = true ∧
    find_similar_response [(0 : ℚ), 0] [⟨[1, 0], "cached answer"⟩] = none :=
  ⟨Or.inl (by norm_num [sumSq, dotList]),
    (cosine_zero_norm_behaviour [(0 : ℚ), 0] [1, 0]
      (Or.inl (by norm_num [sumSq, dotList]))).2.1,
    (cosine_zero_norm_behaviour [(0 : ℚ), 0] [1, 0]
      (Or.inl (by norm_num [sumSq, dotList]))).2.2.2.2
      (by norm_num [sumSq, dotList]) _⟩

/-! ## Claim C4 — cache backend connectivity errors -/

/-- C4, counterexample: with the backend unreachable, `find_similar_response`
does not return a miss — there is no `try`/`except` in its body, so the
Redis connectivity error propagates unchanged. -/
theorem cache_backend_error_counterexample :
    find_similar_response_with_backend
        (Except.error BackendError.connectivity) [(1 : ℚ)] ≠ Except.ok none ∧
    find_similar_response_with_backend
        (Except.error BackendError.connectivity) [(1 : ℚ)] =
      Except.error BackendError.connectivity :=
  ⟨fun hcontra => Except.noConfusion hcontra, rfl⟩

/-- C4, amended: a connectivity error raised by the cache backend propagates
out of `find_similar_response` for every query embedding (and the call site
in `RAGService.query` sits outside that function's `try` block, so the
caller's request is aborted by the cache failure). -/
theorem cache_backend_error_propagates (e : BackendError) (qe : List ℚ) :
    find_similar_response_with_backend (Except.error e) qe = Except.error e :=
  rfl

/-! ## The cache scan computes the declarative lookup

`find_similar_response` is shown equal to `specLookup` by a fold invariant:
after scanning a prefix, the loop state is determined by the first
maximal-similarity entry among the prefix's threshold-passing candidates. -/

lemma sumSq_nil : sumSq [] = 0 := rfl

lemma cosine_empty_threshold (qe : List ℚ) :
    simGeThreshold (cosine_similarity qe []) = false := by
  have h : (cosine_similarity qe []).prodSq = 0 := by
    simp [cosine_similarity, sumSq_nil]
  simp [simGeThreshold, Sim.isNaN, h]

lemma simZero_isNaN : simZero.isNaN = false := by
  norm_num [Sim.isNaN, simZero]

lemma simZero_key : simZero.key = 0 := by
  norm_num [Sim.key, simZero]

lemma simGeThreshold_parts (s : Sim) (h : simGeThreshold s = true) :
    s.isNaN = false ∧ (361 / 400 : ℚ) ≤ s.key := by
  unfold simGeThreshold at h
  simpa [Bool.and_eq_true, Bool.not_eq_true', decide_eq_true_eq] using h

lemma firstMax_eq_none (qe : List ℚ) (l : List CacheEntry) :
    firstMax qe l = none ↔ l = [] := by
  cases l with
  | nil => simp [firstMax]
  | cons e es =>
    unfold firstMax
    cases h : firstMax qe es
    · simp
    · dsimp only
      split_ifs <;> simp

lemma firstMax_mem (qe : List ℚ) (l : List CacheEntry) (e : CacheEntry)
    (h : firstMax qe l = some e) : e ∈ l := by
  induction l with
  | nil => simp [firstMax] at h
  | cons a t ih =>
    unfold firstMax at h
    cases h2 : firstMax qe t with
    | none =>
      rw [h2] at h
      dsimp only at h
      simp only [Option.some.injEq] at h
      subst h
      exact List.mem_cons_self a t
    | some e2 =>
      rw [h2] at h
      dsimp only at h
      split_ifs at h <;> simp only [Option.some.injEq] at h <;> subst h
      · exact List.mem_cons_of_mem a (ih h2)
      · exact List.mem_cons_self a t

lemma firstMax_append (qe : List ℚ) (l : List CacheEntry) (x : CacheEntry) :
    firstMax qe (l ++ [x]) =
      match firstMax qe l with
      | none => some x
      | some e => if entryKey qe e < entryKey qe x then some x else some e := by
  induction l with
  | nil => simp [firstMax]
  | cons a t ih =>
    rw [List.cons_append]
    have hL : firstMax qe (a :: (t ++ [x])) =
        match firstMax qe (t ++ [x]) with
        | none => some a
        | some f => if entryKey qe a < entryKey qe f then some f else some a :=
      rfl
    have hR : firstMax qe (a :: t) =
        match firstMax qe t with
        | none => some a
        | some f => if entryKey qe a < entryKey qe f then some f else some a :=
      rfl
    rw [hL, hR, ih]
    cases h : firstMax qe t with
    | none =>
      have ht : t = [] := (firstMax_eq_none qe t).mp h
      subst ht
      rfl
    | some e2 =>
      dsimp only
      by_cases c1 : entryKey qe e2 < entryKey qe x
      · by_cases c2 : entryKey qe a < entryKey qe e2
        · have c3 : entryKey qe a < entryKey qe x := lt_trans c2 c1
          simp [c1, c2, c3]
        · simp [c1, c2]
      · by_cases c2 : entryKey qe a < entryKey qe e2
        · simp [c1, c2]
        · have c3 : ¬entryKey qe a < entryKey qe x :=
            not_lt.mpr (le_trans (not_lt.mp c1) (not_lt.mp c2))
          simp [c1, c2, c3]

/-- The invariant tying the loop state after a scanned prefix to the
declarative winner over that prefix. -/
def scanInv (qe : List ℚ) (processed : List CacheEntry) (st : ScanState) :
    Prop :=
  match firstMax qe (passingCandidates qe processed) with
  | none => st = ⟨none, simZero⟩
  | some e => st = ⟨some e.response, cosine_similarity qe e.query_embedding⟩

lemma scanInv_step (qe : List ℚ) (p : List CacheEntry) (e : CacheEntry)
    (st : ScanState) (h : scanInv qe p st) :
    scanInv qe (p ++ [e]) (scanStep qe st e) := by
  have hpass : passingCandidates qe (p ++ [e]) =
      passingCandidates qe p ++
        (if simGeThreshold (cosine_similarity qe e.query_embedding) = true
          then [e] else []) := by
    unfold passingCandidates
    rw [List.filter_append]
    congr 1
    cases hc : simGeThreshold (cosine_similarity qe e.query_embedding) <;>
      simp [List.filter, hc]
  unfold scanInv at h ⊢
  by_cases hemb : e.query_embedding = []
  · have hthr : simGeThreshold (cosine_similarity qe e.query_embedding) = false := by
      rw [hemb]
      exact cosine_empty_threshold qe
    rw [hpass, hthr]
    simp only [Bool.false_eq_true, if_false, List.append_nil]
    unfold scanStep
    rw [if_pos hemb]
    exact h
  · unfold scanStep
    rw [if_neg hemb]
    by_cases hthr : simGeThreshold (cosine_similarity qe e.query_embedding) = true
    · rw [hpass, if_pos hthr]
      rcases simGeThreshold_parts _ hthr with ⟨hsnan, hskey⟩
      cases hfm : firstMax qe (passingCandidates qe p) with
      | none =>
        have hnil : passingCandidates qe p = [] := (firstMax_eq_none qe _).mp hfm
        rw [hfm] at h
        rw [hnil, List.nil_append, h]
        have hgt : simGtB (cosine_similarity qe e.query_embedding) simZero = true := by
          unfold simGtB
          rw [hsnan, simZero_isNaN, simZero_key]
          simp only [Bool.not_false, Bool.true_and]
          rw [decide_eq_true_eq]
          linarith
        simp [firstMax, hgt, hthr]
      | some m =>
        rw [hfm] at h
        have hm_mem : m ∈ passingCandidates qe p := firstMax_mem qe _ m hfm
        have hm_thr : simGeThreshold (cosine_similarity qe m.query_embedding) = true :=
          (List.mem_filter.mp hm_mem).2
        have hmnan : (cosine_similarity qe m.query_embedding).isNaN = false :=
          (simGeThreshold_parts _ hm_thr).1
        rw [firstMax_append, hfm, h]
        have hgtb : simGtB (cosine_similarity qe e.query_embedding)
            (cosine_similarity qe m.query_embedding) =
            decide ((cosine_similarity qe m.query_embedding).key <
              (cosine_similarity qe e.query_embedding).key) := by
          unfold simGtB
          rw [hsnan, hmnan]
          simp
        by_cases hk : entryKey qe m < entryKey qe e
        · have hk2 : (cosine_similarity qe m.query_embedding).key <
              (cosine_similarity qe e.query_embedding).key := hk
          simp only [if_pos hk]
          simp [hgtb, hthr, hk2]
        · have hk2 : ¬ ((cosine_similarity qe m.query_embedding).key <
              (cosine_similarity qe e.query_embedding).key) := hk
          simp only [if_neg hk]
          simp [hgtb, hthr, hk2]
    · have hthr2 : simGeThreshold (cosine_similarity qe e.query_embedding) = false :=
        Bool.not_eq_true _ ▸ eq_false_of_ne_true hthr
      rw [hpass, hthr2]
      simp only [Bool.false_eq_true, if_false, List.append_nil]
      rw [if_neg (by simp [hthr2])]
      exact h

lemma scanInv_foldl (qe : List ℚ) :
    ∀ (l p : List CacheEntry) (st : ScanState), scanInv qe p st →
      scanInv qe (p ++ l) (List.foldl (scanStep qe) st l) := by
  intro l
  induction l with
  | nil =>
    intro p st h
    simpa using h
  | cons e t ih =>
    intro p st h
    rw [List.foldl_cons]
    have h2 := scanInv_step qe p e st h
    have h3 := ih (p ++ [e]) (scanStep qe st e) h2
    rwa [List.append_assoc] at h3

lemma find_eq_specLookup (qe : List ℚ) (entries : List CacheEntry) :
    find_similar_response qe entries = specLookup qe entries := by
  by_cases hnil : entries = []
  · subst hnil
    rfl
  · unfold find_similar_response
    rw [if_neg hnil]
    have h0 : scanInv qe [] ⟨none, simZero⟩ := by
      unfold scanInv passingCandidates
      simp [firstMax]
    have hinv := scanInv_foldl qe (entries.take 100) [] ⟨none, simZero⟩ h0
    rw [List.nil_append] at hinv
    unfold scanInv at hinv
    unfold specLookup
    cases hfm : firstMax qe (passingCandidates qe (entries.take 100)) with
    | none =>
      rw [hfm] at hinv
      rw [hinv]
    | some e =>
      rw [hfm] at hinv
      rw [hinv]

/-! ## Claim C6 — the per-domain routing decision table -/

/-- C6: `analyze_complexity` implements exactly the specification's
per-domain decision table, for every word count, sentence count, query text
and domain (configured or unknown — an unknown domain falls back to the
default config with threshold 50; engineering overrides it to 75). -/
theorem analyze_complexity_matches_table (wc sc : ℕ) (query domain : String) :
    (analyze_complexity wc sc query domain).model_tier =
      specDecisionTable wc sc (hasTechnicalTerms query)
        (decide (countChar query '?' > 1)) (hasConditionalLanguage query)
        domain := by
  unfold analyze_complexity specDecisionTable domain_routing
  by_cases h1 : domain = "legal"
  · by_cases hW : wc < 20 <;> by_cases hE : hasConditionalLanguage query = false <;>
      simp [h1, hW, hE]
  by_cases h2 : domain = "hr"
  · by_cases hW : wc > 100 <;>
      by_cases hD : decide (countChar query '?' > 1) = true <;>
      simp [h1, h2, hW, hD]
  by_cases h3 : domain = "engineering"
  · by_cases hA : wc > 75 <;> by_cases hB : sc > 3 <;>
      by_cases hC : hasTechnicalTerms query = true <;>
      by_cases hD : decide (countChar query '?' > 1) = true <;>
      by_cases hE : hasConditionalLanguage query = true <;>
      simp [h1, h2, h3, hA, hB, hC, hD, hE]
  by_cases h4 : domain = "history"
  · by_cases hA : wc > 50 <;> by_cases hB : sc > 3 <;>
      by_cases hC : hasTechnicalTerms query = true <;>
      by_cases hD : decide (countChar query '?' > 1) = true <;>
      by_cases hE : hasConditionalLanguage query = true <;>
      simp [h1, h2, h3, h4, hA, hB, hC, hD, hE]
  by_cases h5 : domain = "general"
  · by_cases hA : wc > 50 <;> by_cases hB : sc > 3 <;>
      by_cases hC : hasTechnicalTerms query = true <;>
      by_cases hD : decide (countChar query '?' > 1) = true <;>
      by_cases hE : hasConditionalLanguage query = true <;>
      simp [h1, h2, h3, h4, h5, hA, hB, hC, hD, hE]
  · by_cases hA : wc > 50 <;> by_cases hB : sc > 3 <;>
      by_cases hC : hasTechnicalTerms query = true <;>
      by_cases hD : decide (countChar query '?' > 1) = true <;>
      by_cases hE : hasConditionalLanguage query = true <;>
      simp [h1, h2, h3, h4, h5, hA, hB, hC, hD, hE]

/-! ## Claim C2 — when the cache lookup hits -/

/-- C2, counterexample: a single stored entry whose embedding matches the
query exactly (cosine similarity 1 ≥ 0.95) but whose stored response is the
empty string.  The best similarity clears the threshold, yet the final
`if best_match:` truthiness test sees the empty string and the lookup
returns a miss — refuting the claimed "hit iff best similarity ≥ 0.95". -/
theorem cache_hit_iff_threshold_counterexample :
    ¬((find_similar_response [(1 : ℚ)] [⟨[1], ""⟩]).isSome = true ↔
      simGeThreshold (cosine_similarity [(1 : ℚ)] [1]) = true) := by
  have h1 : find_similar_response [(1 : ℚ)] [⟨[1], ""⟩] = none := by
    norm_num [find_similar_response, scanStep, cosine_similarity, sumSq,
      dotList, simGtB, simGeThreshold, Sim.isNaN, Sim.key, simZero, List.foldl]
  have h2 : simGeThreshold (cosine_similarity [(1 : ℚ)] [1]) = true := by
    norm_num [simGeThreshold, Sim.isNaN, cosine_similarity, sumSq, dotList,
      Sim.key]
  intro hiff
  have h3 := hiff.mpr h2
  rw [h1] at h3
  exact Bool.false_ne_true h3

/-- C2, amended: the lookup returns a hit iff among the first 100 entries of
the domain's namespace some entry's cosine similarity clears the 0.95
threshold AND the earliest entry attaining the best such similarity has a
non-empty stored response; the hit then carries that entry's response and
similarity.  Stated as equality of the scan with the declarative
`specLookup`. -/
theorem find_similar_response_spec (qe : List ℚ) (entries : List CacheEntry) :
    find_similar_response qe entries = specLookup qe entries :=
  find_eq_specLookup qe entries

/-! ## Claim C10 — an empty stored response masks a high-similarity hit -/

/-- C10: whenever the entry winning the similarity scan (the earliest entry
of maximal similarity among those clearing the 0.95 threshold) has the empty
string as its stored response, the lookup reports a miss — at any similarity,
including an exact embedding match. -/
theorem empty_response_best_match_misses (qe : List ℚ)
    (entries : List CacheEntry) (e : CacheEntry)
    (hwin : firstMax qe (passingCandidates qe (entries.take 100)) = some e)
    (hresp : e.response = "") :
    find_similar_response qe entries = none := by
  rw [find_eq_specLookup]
  unfold specLookup
  rw [hwin]
  dsimp only
  rw [if_pos hresp]

/-- Witness for C10 at a concrete input: a stored entry with embedding equal
to the query embedding (similarity 1.0 ≥ 0.95) and empty response text. -/
theorem empty_response_best_match_misses_witness :
    firstMax [(2 : ℚ)] (passingCandidates [(2 : ℚ)]
      (([⟨[2], ""⟩] : List CacheEntry).take 100)) = some ⟨[2], ""⟩ ∧
    simGeThreshold (cosine_similarity [(2 : ℚ)] [2]) = true ∧
    find_similar_response [(2 : ℚ)] [⟨[2], ""⟩] = none :=
  ⟨by norm_num [passingCandidates, firstMax, List.filter, simGeThreshold,
      Sim.isNaN, cosine_similarity, sumSq, dotList, Sim.key],
   by norm_num [simGeThreshold, Sim.isNaN, cosine_similarity, sumSq, dotList,
      Sim.key],
   empty_response_best_match_misses [2] [⟨[2], ""⟩] ⟨[2], ""⟩
     (by norm_num [passingCandidates, firstMax, List.filter, simGeThreshold,
        Sim.isNaN, cosine_similarity, sumSq, dotList, Sim.key]) rfl⟩

/-! ## Claim C1 — the fused score of a shortlist candidate -/

/-- C1 (evidence for the code bug): corpus = documents "a", "b" in corpus
order with BM25 scores 1 and 2 for the query; vector shortlist = ["b", "a"]
with both distances 0; α = 0.  The second loop of `hybrid_search` zips the
shortlist ids with the corpus-ordered BM25 array, so candidate "b" receives
`(1-α)·bm25_scores[0] = 1` — the lexical score of corpus document "a" — while
the spec formula assigns "b" its own lexical score 2.  Consequently at α = 0
the ranking is ["a", "b"] although ranking by each candidate's own lexical
score alone is ["b", "a"]. -/
theorem hybrid_search_bm25_misalignment :
    combined_scores 0 ["b", "a"] [0, 0] [1, 2] = [("b", 1), ("a", 2)] ∧
    specFusedScore 0 ["a", "b"] [1, 2] 0 "b" = 2 ∧
    specFusedScore 0 ["a", "b"] [1, 2] 0 "a" = 1 ∧
    hybrid_search_ranked 0 5 ["b", "a"] [0, 0] [1, 2] = [("a", 2), ("b", 1)] := by
  have h1 : ("b" : String) ≠ "a" := by decide
  have h2 : ("a" : String) ≠ "b" := by decide
  refine ⟨?_, ?_, ?_, ?_⟩
  · norm_num [combined_scores, dictInsert, dictAddTo, List.zip, h1, h2]
  · norm_num [specFusedScore, ownLexicalScore, List.zip, List.find?, h2]
  · norm_num [specFusedScore, ownLexicalScore, List.zip, List.find?]
  · norm_num [hybrid_search_ranked, combined_scores, dictInsert, dictAddTo,
      List.zip, sortDesc, insertDesc, h1, h2]

/-! ## Claim C7 — ordering of the returned ranking -/

/-- C7, counterexample: with α = 1, shortlist ["b", "a"] and equal distances,
both candidates get fused score 1; Python's sort is stable and `reverse=True`
does not reverse ties, so the result keeps shortlist order ["b", "a"] even
though ascending chunk-id order would be ["a", "b"] (`"a" < "b"`). -/
theorem hybrid_search_tie_counterexample :
    hybrid_search_ranked 1 2 ["b", "a"] [0, 0] [0, 0] = [("b", 1), ("a", 1)] ∧
    ("a" : String) < "b" := by
  have h1 : ("b" : String) ≠ "a" := by decide
  have h2 : ("a" : String) ≠ "b" := by decide
  constructor
  · norm_num [hybrid_search_ranked, combined_scores, dictInsert, dictAddTo,
      List.zip, sortDesc, insertDesc, h1, h2]
  · rw [String.lt_iff_toList_lt]
    decide

lemma mem_insertDesc (x a : String × ℚ) (l : List (String × ℚ)) :
    a ∈ insertDesc x l ↔ a = x ∨ a ∈ l := by
  induction l with
  | nil => simp [insertDesc]
  | cons y ys ih =>
    unfold insertDesc
    split
    · simp [List.mem_cons]
    · simp only [List.mem_cons, ih]
      tauto

lemma insertDesc_pairwise (x : String × ℚ) (l : List (String × ℚ))
    (h : l.Pairwise (fun a b => b.2 ≤ a.2)) :
    (insertDesc x l).Pairwise (fun a b => b.2 ≤ a.2) := by
  induction l with
  | nil => simp [insertDesc]
  | cons y ys ih =>
    rcases List.pairwise_cons.mp h with ⟨hy, hys⟩
    unfold insertDesc
    split
    · rename_i hlt
      refine List.pairwise_cons.mpr ⟨?_, h⟩
      intro z hz
      rcases List.mem_cons.mp hz with rfl | hz2
      · exact le_of_lt hlt
      · exact le_trans (hy z hz2) (le_of_lt hlt)
    · rename_i hge
      refine List.pairwise_cons.mpr ⟨?_, ih hys⟩
      intro z hz
      rcases (mem_insertDesc x z ys).mp hz with rfl | hz2
      · exact not_lt.mp hge
      · exact hy z hz2

lemma filter_insertDesc_ne (x : String × ℚ) (l : List (String × ℚ)) (c : ℚ)
    (hx : x.2 ≠ c) :
    (insertDesc x l).filter (fun p => decide (p.2 = c)) =
      l.filter (fun p => decide (p.2 = c)) := by
  induction l with
  | nil => simp [insertDesc, hx]
  | cons y ys ih =>
    unfold insertDesc
    split
    · simp [List.filter_cons, hx]
    · simp [List.filter_cons, ih]

lemma filter_insertDesc_eq (x : String × ℚ) (l : List (String × ℚ)) (c : ℚ)
    (hx : x.2 = c) (h : l.Pairwise (fun a b => b.2 ≤ a.2)) :
    (insertDesc x l).filter (fun p => decide (p.2 = c)) =
      l.filter (fun p => decide (p.2 = c)) ++ [x] := by
  induction l with
  | nil => simp [insertDesc, hx]
  | cons y ys ih =>
    rcases List.pairwise_cons.mp h with ⟨hy, hys⟩
    unfold insertDesc
    split
    · rename_i hlt
      have hynot : y.2 ≠ c := by
        rw [← hx]
        exact ne_of_lt hlt
      have hfil : (y :: ys).filter (fun p => decide (p.2 = c)) = [] := by
        rw [List.filter_eq_nil_iff]
        intro z hz
        rcases List.mem_cons.mp hz with rfl | hz2
        · simpa using hynot
        · have hzy : z.2 < x.2 := lt_of_le_of_lt (hy z hz2) hlt
          simp only [decide_eq_true_eq]
          rw [← hx]
          exact ne_of_lt hzy
      rw [List.filter_cons_of_pos (by simpa using hx), hfil]
      rfl
    · rename_i hge
      by_cases hy2 : y.2 = c <;> simp [List.filter_cons, hy2, ih hys]

lemma sortDesc_aux (c : ℚ) :
    ∀ (l acc : List (String × ℚ)),
      acc.Pairwise (fun a b => b.2 ≤ a.2) →
      (List.foldl (fun acc x => insertDesc x acc) acc l).Pairwise
        (fun a b => b.2 ≤ a.2) ∧
      (List.foldl (fun acc x => insertDesc x acc) acc l).filter
          (fun p => decide (p.2 = c)) =
        acc.filter (fun p => decide (p.2 = c)) ++
          l.filter (fun p => decide (p.2 = c)) := by
  intro l
  induction l with
  | nil =>
    intro acc h
    simpa using h
  | cons x t ih =>
    intro acc h
    rw [List.foldl_cons]
    have hins := insertDesc_pairwise x acc h
    rcases ih (insertDesc x acc) hins with ⟨hp, hf⟩
    refine ⟨hp, ?_⟩
    rw [hf]
    by_cases hx : x.2 = c
    · rw [filter_insertDesc_eq x acc c hx h]
      simp [List.filter_cons, hx]
    · rw [filter_insertDesc_ne x acc c hx]
      simp [List.filter_cons, hx]

lemma sortDesc_pairwise (l : List (String × ℚ)) :
    (sortDesc l).Pairwise (fun a b => b.2 ≤ a.2) :=
  (sortDesc_aux 0 l [] List.Pairwise.nil).1

lemma sortDesc_stable (l : List (String × ℚ)) (c : ℚ) :
    (sortDesc l).filter (fun p => decide (p.2 = c)) =
      l.filter (fun p => decide (p.2 = c)) := by
  have h := (sortDesc_aux c l [] List.Pairwise.nil).2
  simpa [sortDesc] using h

/-- C7, amended: the ranking returned by `hybrid_search` is sorted in
descending order of fused score, and candidates with equal fused score keep
the order in which they entered `combined_scores` (vector-shortlist order) —
Python's stable sort, not ascending chunk-id order.  Stability is stated as:
filtering the sorted list to any fixed score `c` yields exactly the same
sequence as filtering the unsorted dict items. -/
theorem hybrid_search_sorted_and_stable (alpha : ℚ) (top_k : ℕ)
    (ids : List String) (distances bm25_scores : List ℚ) :
    (hybrid_search_ranked alpha top_k ids distances bm25_scores).Pairwise
      (fun a b => b.2 ≤ a.2) ∧
    ∀ c : ℚ,
      (sortDesc (combined_scores alpha ids distances bm25_scores)).filter
          (fun p => decide (p.2 = c)) =
        (combined_scores alpha ids distances bm25_scores).filter
          (fun p => decide (p.2 = c)) := by
  constructor
  · exact List.Pairwise.sublist (List.take_sublist _ _) (sortDesc_pairwise _)
  · intro c
    exact sortDesc_stable _ c

end RagPipeline
